import Mathlib

/-!
# Verification of the CyruX key API (`src/app.py`)

Shallow embedding of the Flask application in `src/app.py`: the persistence
helpers `load_keys` / `save_keys`, the route handlers `home` (`GET /`),
`generate_key` (`GET /generateKey`) and `validate_key`
(`GET /api/v1/validateKey`), together with executable models of the pieces of
the Python standard library the handlers rely on:

* `datetime` objects are modelled as records of calendar fields
  (`PyDateTime`), exactly the representation CPython uses; `isoformat`,
  `fromisoformat` and aware-datetime comparison are modelled on those fields.
* `json.dump(..., indent=4)` and `json.loads` are modelled for the store's
  data model (a flat JSON object mapping strings to strings, see the spec's
  persisted-file format).  JSON values outside that data model (numbers,
  arrays, nested objects) are rejected by the model parser; `json.dump`'s
  `ensure_ascii` escaping (including `\uXXXX` and surrogate pairs) is
  modelled in full.  Lean `Char`/`String` only contain Unicode scalar
  values, so strings with lone surrogates are outside the model.
* the file system is a record `Fs`: the optional content of `keys.json`
  plus flags saying whether reads and writes succeed (the source wraps its
  reads and writes in `try`/`except`, so I/O failure is part of the
  program's own model of the world).  Fallible operations return `Except`.
-/

namespace CyruxKey

/-! ## Characters and digits -/

/-- The character `{` (written by code point to keep it out of literals). -/
def lbrace : Char := Char.ofNat 123

/-- The character `}` (written by code point). -/
def rbrace : Char := Char.ofNat 125

/-- Decimal digit character for `k < 10` (`'0'` has code 48). -/
def digCh (k : Nat) : Char := Char.ofNat (48 + k)

/-- Numeric value of a decimal digit character, as Python's `int` parsing
of a single character inside `fromisoformat`. -/
def digitVal? (c : Char) : Option Nat :=
  if '0' ≤ c ∧ c ≤ '9' then some (c.toNat - 48) else none

/-- Two-digit zero-padded decimal (Python `'%02d'`, for values below 100). -/
def pad2 (n : Nat) : List Char := [digCh (n / 10 % 10), digCh (n % 10)]

/-- Four-digit zero-padded decimal (Python `'%04d'`, for values below 10000;
`datetime` years are always in `1..9999`). -/
def pad4 (n : Nat) : List Char :=
  [digCh (n / 1000 % 10), digCh (n / 100 % 10), digCh (n / 10 % 10), digCh (n % 10)]

/-- Six-digit zero-padded decimal (Python `'%06d'`, used for microseconds). -/
def pad6 (n : Nat) : List Char :=
  [digCh (n / 100000 % 10), digCh (n / 10000 % 10), digCh (n / 1000 % 10),
   digCh (n / 100 % 10), digCh (n / 10 % 10), digCh (n % 10)]

/-! ## The `datetime` model

CPython's `datetime.datetime` stores exactly these calendar fields (plus a
`tzinfo`; the only offsets this program meets are whole minutes, and
`datetime.timezone.utc` is offset 0). `utcOffsetMinutes = none` models a
naive datetime. -/

structure PyDateTime where
  year : Nat
  month : Nat
  day : Nat
  hour : Nat
  minute : Nat
  second : Nat
  microsecond : Nat
  utcOffsetMinutes : Option Int
  deriving DecidableEq, Repr

/-- Gregorian leap year, as `calendar.isleap` / `datetime`'s internal check. -/
def isLeapYear (y : Nat) : Bool :=
  (y % 4 == 0 && y % 100 != 0) || y % 400 == 0

/-- Days in a month, as `datetime`'s `_days_in_month`. -/
def daysInMonth (y m : Nat) : Nat :=
  if m = 2 then (if isLeapYear y then 29 else 28)
  else if m = 4 ∨ m = 6 ∨ m = 9 ∨ m = 11 then 30
  else 31

/-- The invariant `datetime.datetime`'s constructor enforces on its fields. -/
def PyDateTime.Valid (dt : PyDateTime) : Prop :=
  1 ≤ dt.year ∧ dt.year ≤ 9999 ∧ 1 ≤ dt.month ∧ dt.month ≤ 12 ∧
  1 ≤ dt.day ∧ dt.day ≤ daysInMonth dt.year dt.month ∧
  dt.hour ≤ 23 ∧ dt.minute ≤ 59 ∧ dt.second ≤ 59 ∧ dt.microsecond ≤ 999999

instance (dt : PyDateTime) : Decidable dt.Valid := by
  unfold PyDateTime.Valid; infer_instance

/-- Days before the first of month `m` in year `y`
(`datetime`'s `_days_before_month`). -/
def daysBeforeMonth (y m : Nat) : Nat :=
  [0, 0, 31, 59, 90, 120, 151, 181, 212, 243, 273, 304, 334].getD m 0
  + (if 2 < m ∧ isLeapYear y then 1 else 0)

/-- Proleptic Gregorian ordinal of a date, as `datetime.toordinal`
(`0001-01-01` has ordinal 1). -/
def toOrdinal (y m d : Nat) : Nat :=
  (y - 1) * 365 + (y - 1) / 4 - (y - 1) / 100 + (y - 1) / 400
  + daysBeforeMonth y m + d

/-- The instant an *aware* datetime denotes, in microseconds from a fixed
origin, exactly the quantity CPython compares when ordering two aware
datetimes (ordinal and time fields minus the UTC offset). `none` for naive
datetimes. -/
def PyDateTime.instantMicros? (dt : PyDateTime) : Option Int :=
  dt.utcOffsetMinutes.map (fun off =>
    ((toOrdinal dt.year dt.month dt.day : Int) * 86400
      + dt.hour * 3600 + dt.minute * 60 + dt.second) * 1000000
      + dt.microsecond - off * 60 * 1000000)

/-- Python's `<` on two datetimes as used at `src/app.py:135`
(`current_time < expiration_time`): comparing a naive with an aware
datetime raises `TypeError` (modelled as `none`); two aware datetimes are
ordered by the instant they denote.  In the program the left operand is
always the aware `datetime.now(timezone.utc)`, so the naive/naive case
never arises and is also mapped to `none`. -/
def pyLt? (a b : PyDateTime) : Option Bool :=
  match a.instantMicros?, b.instantMicros? with
  | some x, some y => some (decide (x < y))
  | _, _ => none

/-! ## `isoformat` -/

/-- The `±HH:MM` rendering of a whole-minute UTC offset in `isoformat`. -/
def offsetChars (off : Int) : List Char :=
  if 0 ≤ off then '+' :: (pad2 (off.toNat / 60) ++ ':' :: pad2 (off.toNat % 60))
  else '-' :: (pad2 ((-off).toNat / 60) ++ ':' :: pad2 ((-off).toNat % 60))

/-- The `YYYY-MM-DDTHH:MM:SS` part of `isoformat` output. -/
def dateTimeBase (dt : PyDateTime) : List Char :=
  pad4 dt.year ++ '-' :: pad2 dt.month ++ '-' :: pad2 dt.day
  ++ 'T' :: pad2 dt.hour ++ ':' :: pad2 dt.minute ++ ':' :: pad2 dt.second

/-- `datetime.isoformat()`: date and time, `.ffffff` only when the
microsecond field is nonzero, then the offset for aware datetimes. -/
def isoformatChars (dt : PyDateTime) : List Char :=
  dateTimeBase dt
  ++ (if dt.microsecond = 0 then [] else '.' :: pad6 dt.microsecond)
  ++ (match dt.utcOffsetMinutes with | none => [] | some off => offsetChars off)

/-! ## `+ timedelta(hours=24)` -/

/-- The next civil day (month and year rolling over). -/
def nextDay (dt : PyDateTime) : PyDateTime :=
  if dt.day < daysInMonth dt.year dt.month then { dt with day := dt.day + 1 }
  else if dt.month < 12 then { dt with month := dt.month + 1, day := 1 }
  else { dt with year := dt.year + 1, month := 1, day := 1 }

/-- `dt + datetime.timedelta(hours=24)` (src/app.py:62): adding exactly one
day leaves the time-of-day fields and tzinfo unchanged and advances the
date to the next civil day. -/
def add24Hours (dt : PyDateTime) : PyDateTime := nextDay dt

/-- `'.'`-prefix of a character list: `s.split('.')[0]` in Python. -/
def splitDotHead (l : List Char) : List Char := l.takeWhile (fun c => c ≠ '.')

/-- The expiration string persisted by `generate_key`
(src/app.py:62-64): `(now + 24h).isoformat().split('.')[0] + 'Z'`. -/
def expirationChars (now : PyDateTime) : List Char :=
  splitDotHead (isoformatChars (add24Hours now)) ++ ['Z']

/-- `expirationChars` as a `String`. -/
def expirationString (now : PyDateTime) : String :=
  String.mk (expirationChars now)

/-! ## `fromisoformat` -/

/-- Read exactly two decimal digits. -/
def read2 : List Char → Option (Nat × List Char)
  | a :: b :: rest => do
    let x ← digitVal? a
    let y ← digitVal? b
    pure (10 * x + y, rest)
  | _ => none

/-- Read exactly four decimal digits. -/
def read4 : List Char → Option (Nat × List Char)
  | a :: b :: c :: d :: rest => do
    let x ← digitVal? a
    let y ← digitVal? b
    let z ← digitVal? c
    let w ← digitVal? d
    pure (1000 * x + 100 * y + 10 * z + w, rest)
  | _ => none

/-- Read a fractional-second field of exactly 3 or 6 digits, scaled to
microseconds (Python's pre-3.11 `fromisoformat` accepts only these two
lengths). -/
def readMicros : List Char → Option (Nat × List Char)
  | a :: b :: c :: rest => do
    let x ← digitVal? a
    let y ← digitVal? b
    let z ← digitVal? c
    let v := 100 * x + 10 * y + z
    match rest with
    | d :: e :: f :: rest2 =>
      match digitVal? d, digitVal? e, digitVal? f with
      | some p, some q, some r => pure (v * 1000 + 100 * p + 10 * q + r, rest2)
      | _, _, _ => pure (v * 1000, rest)
    | _ => pure (v * 1000, rest)
  | _ => none

/-- Read a `±HH:MM` UTC offset (the only offset shape this program ever
produces or stores); `timezone` requires a strict sub-day offset, which
for this shape means `HH ≤ 23` and `MM ≤ 59`. Result in minutes. -/
def readOffset : List Char → Option (Int × List Char)
  | c :: rest =>
    if c = '+' ∨ c = '-' then do
      let (h, r1) ← read2 rest
      match r1 with
      | c2 :: r2 =>
        if c2 = ':' then do
          let (m, r3) ← read2 r2
          if h ≤ 23 ∧ m ≤ 59 then
            pure (if c = '+' then ((h * 60 + m : Nat) : Int) else -((h * 60 + m : Nat) : Int), r3)
          else none
        else none
      | [] => none
    else none
  | [] => none

/-- The field validation `datetime.datetime(...)` performs when
`fromisoformat` finally constructs the object. -/
def mkDateTime? (y mo d h mi s us : Nat) (off : Option Int) : Option PyDateTime :=
  if 1 ≤ y ∧ y ≤ 9999 ∧ 1 ≤ mo ∧ mo ≤ 12 ∧ 1 ≤ d ∧ d ≤ daysInMonth y mo
     ∧ h ≤ 23 ∧ mi ≤ 59 ∧ s ≤ 59 ∧ us ≤ 999999 then
    some ⟨y, mo, d, h, mi, s, us, off⟩
  else none

/-- After the minute field: optional `:SS[.ffffff]`, optional offset, end of
input. Returns the datetime. -/
def finishTime (y mo d h mi : Nat) (l : List Char) : Option PyDateTime :=
  match l with
  | [] => mkDateTime? y mo d h mi 0 0 none
  | c :: l1 =>
    if c = ':' then
      match read2 l1 with
      | none => none
      | some (s, l2) =>
        match l2 with
        | [] => mkDateTime? y mo d h mi s 0 none
        | c2 :: l3 =>
          if c2 = '.' then
            match readMicros l3 with
            | none => none
            | some (us, l4) =>
              match l4 with
              | [] => mkDateTime? y mo d h mi s us none
              | _ =>
                (readOffset l4).bind fun p =>
                  match p.2 with
                  | [] => mkDateTime? y mo d h mi s us (some p.1)
                  | _ => none
          else
            (readOffset l2).bind fun p =>
              match p.2 with
              | [] => mkDateTime? y mo d h mi s 0 (some p.1)
              | _ => none
    else
      (readOffset l).bind fun p =>
        match p.2 with
        | [] => mkDateTime? y mo d h mi 0 0 (some p.1)
        | _ => none

/-- Model of `datetime.datetime.fromisoformat` (src/app.py:131) for the
grammar `datetime.isoformat` emits: `YYYY-MM-DD`, optionally followed by
any single separator character and `HH:MM[:SS[.fff/.ffffff]][±HH:MM]`.
Anything else is a `ValueError`, modelled as `none`. -/
def pyFromIsoformat (s : String) : Option PyDateTime := do
  let (y, l1) ← read4 s.data
  match l1 with
  | '-' :: l2 => do
    let (mo, l3) ← read2 l2
    match l3 with
    | '-' :: l4 => do
      let (d, l5) ← read2 l4
      match l5 with
      | [] => mkDateTime? y mo d 0 0 0 0 none
      | _sep :: l6 => do
        let (h, l7) ← read2 l6
        match l7 with
        | ':' :: l8 => do
          let (mi, l9) ← read2 l8
          finishTime y mo d h mi l9
        | _ => none
    | _ => none
  | _ => none

/-- `s.replace('Z', '+00:00')` on the stored expiration string
(src/app.py:131); Python's `str.replace` replaces every occurrence. -/
def replaceZChars : List Char → List Char
  | [] => []
  | c :: rest =>
    if c = 'Z' then '+' :: '0' :: '0' :: ':' :: '0' :: '0' :: replaceZChars rest
    else c :: replaceZChars rest

/-- The parse the validator applies to a stored expiration string:
`fromisoformat(stored.replace('Z', '+00:00'))`. -/
def parseExpiration (s : String) : Option PyDateTime :=
  pyFromIsoformat (String.mk (replaceZChars s.data))

/-! ## `json.dump` / `json.loads` for the store's data model

The store is a flat JSON object mapping strings to strings
(`key → expiration` per the spec's persisted-file format), kept as an
association list in Python-dict insertion order. -/

/-- A key/value assignment with Python-dict semantics: an existing key has
its value replaced in place, a fresh key is appended at the end
(`keys[new_key] = expiration_str`, src/app.py:68). -/
def insertEntry : List (String × String) → String → String → List (String × String)
  | [], k, v => [(k, v)]
  | (k0, v0) :: rest, k, v =>
    if k0 = k then (k0, v) :: rest else (k0, v0) :: insertEntry rest k v

/-- `key in keys` / `keys[key]` on the dict, as a single lookup. -/
def getVal? : List (String × String) → String → Option String
  | [], _ => none
  | (k0, v0) :: rest, k => if k0 = k then some v0 else getVal? rest k

/-- Hexadecimal digit character, lowercase, as CPython's `\uXXXX` output. -/
def hexDig (k : Nat) : Char :=
  if k < 10 then Char.ofNat (48 + k) else Char.ofNat (87 + k)

/-- Four lowercase hex digits of `n < 0x10000`. -/
def hex4 (n : Nat) : List Char :=
  [hexDig (n / 4096 % 16), hexDig (n / 256 % 16), hexDig (n / 16 % 16), hexDig (n % 16)]

/-- `json.dump`'s `ensure_ascii` escaping of one character
(CPython `py_encode_basestring_ascii`): backslash, double quote and the
named control characters get two-character escapes, other characters
outside `0x20..0x7e` get `\uXXXX`, astral characters a surrogate pair. -/
def escapeChar (c : Char) : List Char :=
  let n := c.toNat
  if c = '"' then ['\\', '"']
  else if c = '\\' then ['\\', '\\']
  else if n = 8 then ['\\', 'b']
  else if n = 9 then ['\\', 't']
  else if n = 10 then ['\\', 'n']
  else if n = 12 then ['\\', 'f']
  else if n = 13 then ['\\', 'r']
  else if n < 32 ∨ 126 < n then
    if n < 65536 then '\\' :: 'u' :: hex4 n
    else
      ('\\' :: 'u' :: hex4 (55296 + (n - 65536) / 1024))
      ++ ('\\' :: 'u' :: hex4 (56320 + (n - 65536) % 1024))
  else [c]

/-- `escapeChar` over a whole string. -/
def escapeList : List Char → List Char
  | [] => []
  | c :: rest => escapeChar c ++ escapeList rest

/-- One `"key": "value"` item of `json.dump` output. -/
def entryChars (k v : String) : List Char :=
  '"' :: escapeList k.data ++ '"' :: ':' :: ' ' :: '"' :: escapeList v.data ++ ['"']

/-- The newline-plus-indent `json.dump(..., indent=4)` puts before each item. -/
def nlIndent : List Char := ['\n', ' ', ' ', ' ', ' ']

/-- The item list of `json.dump(..., indent=4)` output: each item on its own
indented line, items separated by commas. -/
def entriesChars : List (String × String) → List Char
  | [] => []
  | [(k, v)] => nlIndent ++ entryChars k v
  | (k, v) :: rest => nlIndent ++ entryChars k v ++ ',' :: entriesChars rest

/-- `json.dump(mapping, f, indent=4)` (src/app.py:37): `"{}"` for the empty
dict, otherwise the brace-wrapped indented item list. -/
def dumpsChars (m : List (String × String)) : List Char :=
  match m with
  | [] => [lbrace, rbrace]
  | _ => lbrace :: (entriesChars m ++ ['\n', rbrace])

/-- `dumpsChars` as a `String`. -/
def dumpsStr (m : List (String × String)) : String := String.mk (dumpsChars m)

/-- JSON whitespace skipping (`json.loads` accepts space, tab, newline,
carriage return between tokens). -/
def skipWs : List Char → List Char
  | c :: rest =>
    if c = ' ' ∨ c = '\t' ∨ c = '\n' ∨ c = '\r' then skipWs rest else c :: rest
  | [] => []

/-- Value of one hexadecimal digit character (either case), as in
CPython's `\uXXXX` scanning. -/
def hexVal? (c : Char) : Option Nat :=
  if '0' ≤ c ∧ c ≤ '9' then some (c.toNat - 48)
  else if 'a' ≤ c ∧ c ≤ 'f' then some (c.toNat - 87)
  else if 'A' ≤ c ∧ c ≤ 'F' then some (c.toNat - 55)
  else none

/-- Read the four hex digits of a `\uXXXX` escape. -/
def readU16 : List Char → Option (Nat × List Char)
  | a :: b :: c :: d :: rest =>
    match hexVal? a, hexVal? b, hexVal? c, hexVal? d with
    | some x, some y, some z, some w => some (4096 * x + 256 * y + 16 * z + w, rest)
    | _, _, _, _ => none
  | _ => none

/-- The scalar value a surrogate pair denotes. -/
def surrogateJoin (hi lo : Nat) : Nat :=
  65536 + (hi - 55296) * 1024 + (lo - 56320)

/-- The two-character escapes `json.loads` accepts. -/
def unescape1? (e : Char) : Option Char :=
  if e = '"' then some '"'
  else if e = '\\' then some '\\'
  else if e = '/' then some '/'
  else if e = 'b' then some (Char.ofNat 8)
  else if e = 'f' then some (Char.ofNat 12)
  else if e = 'n' then some (Char.ofNat 10)
  else if e = 'r' then some (Char.ofNat 13)
  else if e = 't' then some (Char.ofNat 9)
  else none

/-- Decoding of one backslash escape (`json.loads`' `py_scanstring`),
entered just after the backslash: the two-character escapes, `\uXXXX`
escapes, and the combination of adjacent high/low surrogate escapes.  A
surrogate escape that does not combine is rejected (its result is not a
Unicode scalar value and is not representable as a Lean `Char`; such
strings are outside this model). -/
def readEscape : List Char → Option (Char × List Char)
  | [] => none
  | e :: rest2 =>
    if e = 'u' then
      match readU16 rest2 with
      | none => none
      | some (n, rest3) =>
        if 55296 ≤ n ∧ n < 56320 then
          match rest3 with
          | e2 :: u2 :: rest4 =>
            if e2 = '\\' ∧ u2 = 'u' then
              match readU16 rest4 with
              | none => none
              | some (n2, rest5) =>
                if 56320 ≤ n2 ∧ n2 < 57344 then
                  some (Char.ofNat (surrogateJoin n n2), rest5)
                else none
            else none
          | _ => none
        else if 56320 ≤ n ∧ n < 57344 then none
        else some (Char.ofNat n, rest3)
    else
      match unescape1? e with
      | some ch => some (ch, rest2)
      | none => none

/-- JSON string-body scanning (`json.loads`' `py_scanstring`, strict mode),
from just after the opening quote to just after the closing quote: raw
control characters are rejected, escapes are decoded by `readEscape`.  The
fuel argument strictly exceeds the recursion depth whenever it exceeds the
input length. -/
def parseStrBodyAux : Nat → List Char → Option (List Char × List Char)
  | 0, _ => none
  | _ + 1, [] => none
  | fuel + 1, c :: rest =>
    if c = '"' then some ([], rest)
    else if c = '\\' then
      match readEscape rest with
      | none => none
      | some (ch, rest2) => (parseStrBodyAux fuel rest2).map (fun p => (ch :: p.1, p.2))
    else if c.toNat < 32 then none
    else (parseStrBodyAux fuel rest).map (fun p => (c :: p.1, p.2))

/-- String-body scanning with sufficient fuel. -/
def parseStrBody (l : List Char) : Option (List Char × List Char) :=
  parseStrBodyAux (l.length + 1) l

/-- Object-member scanning (`json.loads`' `JSONObject` loop), entered at the
first character of a key (whitespace already skipped), accumulating into a
dict; one unit of fuel per member. -/
def parseEntriesAux :
    Nat → List Char → List (String × String) → Option (List (String × String) × List Char)
  | 0, _, _ => none
  | fuel + 1, l, acc =>
    match l with
    | [] => none
    | c :: l1 =>
      if c = '"' then
        match parseStrBody l1 with
        | none => none
        | some (k, l2) =>
          match skipWs l2 with
          | [] => none
          | c2 :: l3 =>
            if c2 = ':' then
              match skipWs l3 with
              | [] => none
              | c3 :: l4 =>
                if c3 = '"' then
                  match parseStrBody l4 with
                  | none => none
                  | some (v, l5) =>
                    let acc2 := insertEntry acc (String.mk k) (String.mk v)
                    match skipWs l5 with
                    | [] => none
                    | c4 :: l6 =>
                      if c4 = ',' then parseEntriesAux fuel (skipWs l6) acc2
                      else if c4 = rbrace then some (acc2, l6)
                      else none
                else none
            else none
      else none

/-- Model of `json.loads` (src/app.py:28) for the store's data model: a
single JSON object whose member values are strings.  JSON documents whose
top-level value is not such an object are outside the store's data model
and rejected by the model (CPython would return a non-dict value, which no
claim depends on). -/
def pyLoadsChars (l : List Char) : Option (List (String × String)) :=
  match skipWs l with
  | [] => none
  | c :: l1 =>
    if c = lbrace then
      match skipWs l1 with
      | [] => none
      | d :: l2 =>
        if d = rbrace then (match skipWs l2 with | [] => some [] | _ => none)
        else
          match parseEntriesAux (l.length + 1) (d :: l2) [] with
          | some (m, rest) => (match skipWs rest with | [] => some m | _ => none)
          | none => none
    else none

/-- `pyLoadsChars` on a `String`. -/
def pyLoadsStr (s : String) : Option (List (String × String)) := pyLoadsChars s.data

/-! ## The file system and the persistence helpers -/

/-- The state of `keys.json` as the program can observe it: the file's
content (`none` when the file does not exist) together with whether read
and write system calls succeed.  The source guards its reads and writes
with `try`/`except`, so I/O failure is part of the program's own model of
the world; a failed write leaves the content unchanged. -/
structure Fs where
  content : Option String
  readOk : Bool
  writeOk : Bool
  deriving DecidableEq, Repr

/-- The content `json.dump({}, f)` writes when `load_keys` creates a missing
store file (no `indent` argument there, so compact `"{}"`). -/
def emptyJson : String := String.mk [lbrace, rbrace]

/-- `load_keys` (src/app.py:13-31).  A missing file is created empty and the
empty dict returned — but that creating `open(KEY_FILE, 'w')` is *outside*
the `try`, so its failure propagates (`Except.error`).  The guarded read
path returns the empty dict on any read or parse failure. -/
def load_keys (fs : Fs) : Except Unit (List (String × String) × Fs) :=
  match fs.content with
  | none =>
    if fs.writeOk then .ok ([], { fs with content := some emptyJson })
    else .error ()
  | some s =>
    if fs.readOk then
      if s = "" then .ok ([], fs)
      else
        match pyLoadsStr s with
        | some m => .ok (m, fs)
        | none => .ok ([], fs)
    else .ok ([], fs)

/-- `save_keys` (src/app.py:33-41): overwrite the file with
`json.dump(keys_data, f, indent=4)`, returning `False` (and leaving the
file as it was) when the guarded write fails. -/
def save_keys (m : List (String × String)) (fs : Fs) : Bool × Fs :=
  if fs.writeOk then (true, { fs with content := some (dumpsStr m) })
  else (false, fs)

/-! ## The route handlers -/

/-- The message of the root route's JSON payload (src/app.py:50). -/
def homeMsg : String :=
  "CyruX Key API is running. Use /generateKey or /api/v1/validateKey"

/-- `home` (src/app.py:45-51), the `GET /` handler: a liveness check that
returns the JSON payload `(status, message)` with HTTP 200 and performs no
store access at all.  Responses are modelled as
(HTTP code, status field, message field). -/
def home (fs : Fs) : (Nat × String × String) × Fs :=
  ((200, "online", homeMsg), fs)

/-- The static skeleton of the confirmation page, abbreviated to its
load-bearing structure: an HTML page embedding the generated key and then
the localized expiration display.  (The full template's CSS and static
Spanish text carry no information any claim depends on.) -/
def pageBefore : String := "<!DOCTYPE html><html lang=\"es\"><div class=\"key-box\"><p>"

/-- Static HTML between the key and the expiration display. -/
def pageBetween : String := "</p></div><p class=\"info\">La clave es valida hasta el: <strong>"

/-- Static HTML after the expiration display. -/
def pageAfter : String := "</strong></p></html>"

/-- The rendered confirmation page: static HTML around the key and the
localized expiration display (src/app.py:77-105). -/
def confirmationPage (key expDisplay : String) : String :=
  pageBefore ++ key ++ pageBetween ++ expDisplay ++ pageAfter

/-- `generate_key` (src/app.py:56-106), the `GET /generateKey` handler.
`newKey` stands for the freshly drawn `uuid.uuid4()` hex string and `now`
for `datetime.now(timezone.utc)` — both nondeterministic inputs of the
handler.  `localize` stands for `astimezone().strftime(...)`, whose output
depends on the server's local timezone (an environment input); no claim
depends on it.  The handler computes the expiration string, loads the
store, assigns the new key, saves (ignoring `save_keys`' result), and
returns the confirmation page. -/
def generate_key (newKey : String) (now : PyDateTime) (localize : PyDateTime → String)
    (fs : Fs) : Except Unit (String × Fs) :=
  let expirationTime := add24Hours now
  match load_keys fs with
  | .error e => .error e
  | .ok (keys, fs1) =>
    let keys2 := insertEntry keys newKey (expirationString now)
    let (_saved, fs2) := save_keys keys2 fs1
    .ok (confirmationPage newKey (localize expirationTime), fs2)

/-- `validate_key` (src/app.py:110-143), the `GET /api/v1/validateKey`
handler.  `param` is `request.args.get('key')` (`none` when the query
parameter is absent); `not key_to_validate` is true for both `None` and
the empty string.  The `try` block around parsing and comparison turns any
exception (unparseable stored string, or comparing the aware `now` with a
naive parsed datetime) into the 500 response. -/
def validate_key (param : Option String) (fs : Fs) (now : PyDateTime) :
    Except Unit ((Nat × String × String) × Fs) :=
  match param with
  | none => .ok ((400, "invalid", "No key provided"), fs)
  | some k =>
    if k = "" then .ok ((400, "invalid", "No key provided"), fs)
    else
      match load_keys fs with
      | .error e => .error e
      | .ok (keys, fs1) =>
        match getVal? keys k with
        | none => .ok ((404, "invalid", "Key not found"), fs1)
        | some stored =>
          match parseExpiration stored with
          | none => .ok ((500, "invalid", "Internal format error"), fs1)
          | some expirationTime =>
            match pyLt? now expirationTime with
            | none => .ok ((500, "invalid", "Internal format error"), fs1)
            | some true => .ok ((200, "valid", "Access Granted"), fs1)
            | some false => .ok ((401, "invalid", "Key Expired"), fs1)

/-! ## Character and digit lemmas -/

theorem toNat_ofNat_valid (n : Nat) (h : Nat.isValidChar n) : (Char.ofNat n).toNat = n := by
  unfold Char.ofNat
  rw [dif_pos h]
  unfold Char.ofNatAux
  simp [Char.toNat, UInt32.toNat, BitVec.toNat_ofNatLt]

theorem char_eq_of_toNat_eq {c : Char} {n : Nat} (h : c.toNat = n) : c = Char.ofNat n := by
  subst h
  exact (Char.ofNat_toNat c).symm

theorem char_valid_bounds (c : Char) :
    c.toNat < 55296 ∨ (57343 < c.toNat ∧ c.toNat < 1114112) := c.valid

theorem digitVal_digCh (k : Nat) (h : k < 10) : digitVal? (digCh k) = some k := by
  interval_cases k <;> decide

theorem hexVal_hexDig (k : Nat) (h : k < 16) : hexVal? (hexDig k) = some k := by
  interval_cases k <;> decide

theorem digCh_ne_dot (k : Nat) (h : k < 10) : digCh k ≠ '.' := by
  interval_cases k <;> decide

theorem digCh_ne_upperZ (k : Nat) (h : k < 10) : digCh k ≠ 'Z' := by
  interval_cases k <;> decide

theorem read2_pad2 (n : Nat) (h : n < 100) (r : List Char) :
    read2 (pad2 n ++ r) = some (n, r) := by
  simp only [pad2, List.cons_append, List.nil_append, read2,
    digitVal_digCh (n / 10 % 10) (by omega), digitVal_digCh (n % 10) (by omega)]
  simp only [Option.bind_eq_bind, Option.some_bind, Option.pure_def, Option.some.injEq,
    Prod.mk.injEq]
  exact ⟨by omega, trivial⟩

theorem read4_pad4 (n : Nat) (h : n < 10000) (r : List Char) :
    read4 (pad4 n ++ r) = some (n, r) := by
  simp only [pad4, List.cons_append, List.nil_append, read4,
    digitVal_digCh (n / 1000 % 10) (by omega), digitVal_digCh (n / 100 % 10) (by omega),
    digitVal_digCh (n / 10 % 10) (by omega), digitVal_digCh (n % 10) (by omega)]
  simp only [Option.bind_eq_bind, Option.some_bind, Option.pure_def, Option.some.injEq,
    Prod.mk.injEq]
  exact ⟨by omega, trivial⟩

theorem readU16_hex4 (n : Nat) (h : n < 65536) (r : List Char) :
    readU16 (hex4 n ++ r) = some (n, r) := by
  simp only [hex4, List.cons_append, List.nil_append, readU16,
    hexVal_hexDig (n / 4096 % 16) (by omega), hexVal_hexDig (n / 256 % 16) (by omega),
    hexVal_hexDig (n / 16 % 16) (by omega), hexVal_hexDig (n % 16) (by omega)]
  simp only [Option.some.injEq, Prod.mk.injEq]
  exact ⟨by omega, trivial⟩

/-! ## JSON string round-trip -/

theorem escapeChar_length_pos (c : Char) : 0 < (escapeChar c).length := by
  simp only [escapeChar]
  split_ifs <;> simp [hex4]

theorem escapeList_length (s : List Char) : s.length ≤ (escapeList s).length := by
  induction s with
  | nil => simp [escapeList]
  | cons c s ih =>
    have := escapeChar_length_pos c
    simp only [escapeList, List.length_cons, List.length_append]
    omega

/-- Decoding the `\uXXXX` escape of a BMP character. -/
theorem readEscape_u_bmp (c : Char) (l : List Char)
    (hbmp : c.toNat < 65536)
    (hs1 : ¬(55296 ≤ c.toNat ∧ c.toNat < 56320))
    (hs2 : ¬(56320 ≤ c.toNat ∧ c.toNat < 57344)) :
    readEscape ('u' :: (hex4 c.toNat ++ l)) = some (c, l) := by
  simp only [readEscape, Char.reduceEq, reduceIte]
  simp only [readU16_hex4 c.toNat hbmp, hs1, hs2, if_false, Char.ofNat_toNat]

/-- Decoding the surrogate-pair escape of an astral character. -/
theorem readEscape_u_astral (c : Char) (l : List Char)
    (hlo : 65536 ≤ c.toNat) (hhi : c.toNat < 1114112) :
    readEscape ('u' :: (hex4 (55296 + (c.toNat - 65536) / 1024)
      ++ ('\\' :: 'u' :: (hex4 (56320 + (c.toNat - 65536) % 1024) ++ l)))) = some (c, l) := by
  have hhiS : 55296 ≤ 55296 + (c.toNat - 65536) / 1024
      ∧ 55296 + (c.toNat - 65536) / 1024 < 56320 := by omega
  have hloS : 56320 ≤ 56320 + (c.toNat - 65536) % 1024
      ∧ 56320 + (c.toNat - 65536) % 1024 < 57344 := by omega
  simp only [readEscape, Char.reduceEq, reduceIte]
  rw [readU16_hex4 (55296 + (c.toNat - 65536) / 1024) (by omega)]
  simp only [if_pos hhiS, Char.reduceEq, reduceIte, true_and, and_true, and_self]
  rw [readU16_hex4 (56320 + (c.toNat - 65536) % 1024) (by omega)]
  simp only [if_pos hloS]
  have hj : surrogateJoin (55296 + (c.toNat - 65536) / 1024)
      (56320 + (c.toNat - 65536) % 1024) = c.toNat := by
    unfold surrogateJoin
    omega
  rw [hj, Char.ofNat_toNat]

/-- Scanning one step after a backslash (readEscape succeeded): the scanner
conses the decoded character and continues. -/
theorem parseStrBodyAux_backslash (fuel : Nat) (rest : List Char) (ch : Char)
    (rest2 : List Char) (h : readEscape rest = some (ch, rest2)) :
    parseStrBodyAux (fuel + 1) ('\\' :: rest) =
      (parseStrBodyAux fuel rest2).map (fun p => (ch :: p.1, p.2)) := by
  simp only [parseStrBodyAux, Char.reduceEq, reduceIte, h]

/-- Scanning one escaped character: the scanner consumes exactly the escape
of `c`, produces `c`, and continues (with one unit of fuel spent). -/
theorem parseStrBodyAux_escapeChar (c : Char) (fuel : Nat) (l : List Char) :
    parseStrBodyAux (fuel + 1) (escapeChar c ++ l) =
      (parseStrBodyAux fuel l).map (fun p => (c :: p.1, p.2)) := by
  have hv := char_valid_bounds c
  by_cases h1 : c = '"'
  · subst h1
    rw [show escapeChar '"' ++ l = '\\' :: ('"' :: l) by rfl]
    rw [parseStrBodyAux_backslash fuel _ '"' l (by simp [readEscape, unescape1?])]
  by_cases h2 : c = '\\'
  · subst h2
    rw [show escapeChar '\\' ++ l = '\\' :: ('\\' :: l) by rfl]
    rw [parseStrBodyAux_backslash fuel _ '\\' l (by simp [readEscape, unescape1?])]
  by_cases h8 : c.toNat = 8
  · rw [char_eq_of_toNat_eq h8]
    rw [show escapeChar (Char.ofNat 8) ++ l = '\\' :: ('b' :: l) by rfl]
    rw [parseStrBodyAux_backslash fuel _ (Char.ofNat 8) l (by simp [readEscape, unescape1?])]
  by_cases h9 : c.toNat = 9
  · rw [char_eq_of_toNat_eq h9]
    rw [show escapeChar (Char.ofNat 9) ++ l = '\\' :: ('t' :: l) by rfl]
    rw [parseStrBodyAux_backslash fuel _ (Char.ofNat 9) l (by simp [readEscape, unescape1?])]
  by_cases h10 : c.toNat = 10
  · rw [char_eq_of_toNat_eq h10]
    rw [show escapeChar (Char.ofNat 10) ++ l = '\\' :: ('n' :: l) by rfl]
    rw [parseStrBodyAux_backslash fuel _ (Char.ofNat 10) l (by simp [readEscape, unescape1?])]
  by_cases h12 : c.toNat = 12
  · rw [char_eq_of_toNat_eq h12]
    rw [show escapeChar (Char.ofNat 12) ++ l = '\\' :: ('f' :: l) by rfl]
    rw [parseStrBodyAux_backslash fuel _ (Char.ofNat 12) l (by simp [readEscape, unescape1?])]
  by_cases h13 : c.toNat = 13
  · rw [char_eq_of_toNat_eq h13]
    rw [show escapeChar (Char.ofNat 13) ++ l = '\\' :: ('r' :: l) by rfl]
    rw [parseStrBodyAux_backslash fuel _ (Char.ofNat 13) l (by simp [readEscape, unescape1?])]
  by_cases hesc : c.toNat < 32 ∨ 126 < c.toNat
  · by_cases hbmp : c.toNat < 65536
    · have hs1 : ¬(55296 ≤ c.toNat ∧ c.toNat < 56320) := by omega
      have hs2 : ¬(56320 ≤ c.toNat ∧ c.toNat < 57344) := by omega
      have he : escapeChar c ++ l = '\\' :: ('u' :: (hex4 c.toNat ++ l)) := by
        simp only [escapeChar]
        rw [if_neg h1, if_neg h2, if_neg h8, if_neg h9, if_neg h10, if_neg h12,
          if_neg h13, if_pos hesc, if_pos hbmp]
        simp
      rw [he, parseStrBodyAux_backslash fuel _ c l (readEscape_u_bmp c l hbmp hs1 hs2)]
    · have he : escapeChar c ++ l = '\\' :: ('u' :: (hex4 (55296 + (c.toNat - 65536) / 1024)
          ++ ('\\' :: 'u' :: (hex4 (56320 + (c.toNat - 65536) % 1024) ++ l)))) := by
        simp only [escapeChar]
        rw [if_neg h1, if_neg h2, if_neg h8, if_neg h9, if_neg h10, if_neg h12,
          if_neg h13, if_pos hesc, if_neg hbmp]
        simp
      rw [he, parseStrBodyAux_backslash fuel _ c _
        (readEscape_u_astral c _ (by omega) (by omega))]
  · have he : escapeChar c ++ l = c :: l := by
      simp only [escapeChar]
      rw [if_neg h1, if_neg h2, if_neg h8, if_neg h9, if_neg h10, if_neg h12,
        if_neg h13, if_neg hesc]
      simp
    rw [he]
    simp only [parseStrBodyAux]
    rw [if_neg h1, if_neg h2, if_neg (by omega : ¬ c.toNat < 32)]

/-- Scanning the escape of a whole string: the scanner returns exactly the
original string and the rest of the input. -/
theorem parseStrBodyAux_escapeList :
    ∀ (s : List Char) (fuel : Nat) (r : List Char), s.length < fuel →
      parseStrBodyAux fuel (escapeList s ++ '"' :: r) = some (s, r)
  | [], fuel + 1, r, _ => by simp [escapeList, parseStrBodyAux]
  | c :: s, fuel + 1, r, h => by
    rw [escapeList, List.append_assoc, parseStrBodyAux_escapeChar,
      parseStrBodyAux_escapeList s fuel r (by simp at h; omega)]
    rfl

theorem parseStrBody_escapeList (s r : List Char) :
    parseStrBody (escapeList s ++ '"' :: r) = some (s, r) := by
  apply parseStrBodyAux_escapeList
  have := escapeList_length s
  simp only [List.length_append, List.length_cons]
  omega

/-! ## Object round-trip -/

theorem stringMk_data (s : String) : String.mk s.data = s := rfl

theorem getVal?_append_of_none {acc : List (String × String)} {k : String}
    (h : getVal? acc k = none) (tl : List (String × String)) :
    getVal? (acc ++ tl) k = getVal? tl k := by
  induction acc with
  | nil => simp
  | cons p rest ih =>
    rw [getVal?] at h
    rcases p with ⟨k0, v0⟩
    by_cases hk : k0 = k
    · simp [hk] at h
    · simp only [List.cons_append, getVal?, if_neg hk] at h ⊢
      exact ih h

theorem insertEntry_of_fresh {acc : List (String × String)} {k : String}
    (h : getVal? acc k = none) (v : String) :
    insertEntry acc k v = acc ++ [(k, v)] := by
  induction acc with
  | nil => simp [insertEntry]
  | cons p rest ih =>
    rcases p with ⟨k0, v0⟩
    rw [getVal?] at h
    by_cases hk : k0 = k
    · simp [hk] at h
    · simp only [if_neg hk] at h
      simp only [insertEntry, if_neg hk, List.cons_append, List.cons.injEq, true_and]
      exact ih h

theorem mem_keys_insertEntry {acc : List (String × String)} {k v x : String}
    (h : x ∈ (insertEntry acc k v).map Prod.fst) :
    x ∈ acc.map Prod.fst ∨ x = k := by
  induction acc with
  | nil => simp [insertEntry] at h; simp [h]
  | cons p rest ih =>
    rcases p with ⟨k0, v0⟩
    by_cases hk : k0 = k
    · simp only [insertEntry, if_pos hk, List.map_cons, List.mem_cons] at h
      rcases h with h | h
      · exact Or.inl (by simp [h])
      · exact Or.inl (by simp [h])
    · simp only [insertEntry, if_neg hk, List.map_cons, List.mem_cons] at h
      rcases h with h | h
      · exact Or.inl (by simp [h])
      · rcases ih h with h2 | h2
        · exact Or.inl (by simp [h2, List.mem_cons])
        · exact Or.inr h2

theorem insertEntry_nodup {acc : List (String × String)} {k v : String}
    (h : (acc.map Prod.fst).Nodup) :
    ((insertEntry acc k v).map Prod.fst).Nodup := by
  induction acc with
  | nil => simp [insertEntry]
  | cons p rest ih =>
    rcases p with ⟨k0, v0⟩
    simp only [List.map_cons, List.nodup_cons] at h
    by_cases hk : k0 = k
    · simp only [insertEntry, if_pos hk, List.map_cons, List.nodup_cons]
      exact h
    · simp only [insertEntry, if_neg hk, List.map_cons, List.nodup_cons]
      refine ⟨fun hmem => ?_, ih h.2⟩
      rcases mem_keys_insertEntry hmem with h2 | h2
      · exact h.1 h2
      · exact hk h2

/-- The item stream of one entry, from just after the opening quote of its
key to the end of the stream. -/
def entryTail (k v : String) (sep : List Char) : List Char :=
  escapeList k.data ++ '"' :: ':' :: ' ' :: '"' :: (escapeList v.data ++ '"' :: sep)

/-- The character stream `parseEntriesAux` is entered on when scanning
`json.dump` output: entries separated by `",\n    "`, closed by `"\n}"`,
leading whitespace already skipped. -/
def entriesStream : List (String × String) → List Char
  | [] => []
  | (k, v) :: rest =>
    '"' :: entryTail k v (match rest with
      | [] => ['\n', rbrace]
      | _ :: _ => ',' :: (nlIndent ++ entriesStream rest))

/-- What follows one dumped entry: the closing `"\n}"` after the last
entry, the `",\n    "` separator and the next entries otherwise. -/
def entrySep (rest : List (String × String)) : List Char :=
  match rest with
  | [] => ['\n', rbrace]
  | _ :: _ => ',' :: (nlIndent ++ entriesStream rest)

theorem entriesStream_cons (k v : String) (rest : List (String × String)) :
    entriesStream ((k, v) :: rest) = '"' :: entryTail k v (entrySep rest) := by
  rcases rest with _ | ⟨p, r⟩ <;> rfl

theorem entryChars_tail (k v : String) (sep : List Char) :
    entryChars k v ++ sep = '"' :: entryTail k v sep := by
  simp [entryChars, entryTail]

theorem entryTail_append (k v : String) (sep X : List Char) :
    entryTail k v sep ++ X = entryTail k v (sep ++ X) := by
  simp [entryTail]

theorem entriesChars_stream :
    ∀ (m : List (String × String)), m ≠ [] →
      entriesChars m ++ ['\n', rbrace] = nlIndent ++ entriesStream m
  | [], h => absurd rfl h
  | [(k, v)], _ => by
    rw [entriesStream, entriesChars]
    simp only [List.append_assoc, entryChars_tail]
  | (k, v) :: (p :: rest), _ => by
    have ih := entriesChars_stream (p :: rest) (by simp)
    rw [entriesStream, entriesChars]
    · simp only [List.append_assoc, List.cons_append, entryChars_tail, entryTail_append, ih]
    · simp

theorem entriesStream_shape (p : String × String) (rest : List (String × String)) :
    entriesStream (p :: rest) = '"' :: entryTail p.1 p.2 (match rest with
      | [] => ['\n', rbrace]
      | _ :: _ => ',' :: (nlIndent ++ entriesStream rest)) := by
  rcases p with ⟨k, v⟩
  rfl

theorem skipWs_nlIndent_quote (X : List Char) :
    skipWs (nlIndent ++ '"' :: X) = '"' :: X := rfl

theorem skipWs_nlIndent_stream (p : String × String) (rest : List (String × String)) :
    skipWs (nlIndent ++ entriesStream (p :: rest)) = entriesStream (p :: rest) := by
  rcases p with ⟨k, v⟩
  rcases rest with _ | ⟨q, rest'⟩ <;> rfl

/-- Scanning `json.dump` output entry-by-entry accumulates exactly the
dumped entries (fresh keys throughout, one unit of fuel per entry). -/
theorem parseEntriesAux_stream :
    ∀ (xs acc : List (String × String)) (fuel : Nat), xs ≠ [] → xs.length < fuel →
      (∀ p ∈ xs, getVal? acc p.1 = none) → (xs.map Prod.fst).Nodup →
      parseEntriesAux fuel (entriesStream xs) acc = some (acc ++ xs, [])
  | [], _, _, h, _, _, _ => absurd rfl h
  | (k, v) :: rest, acc, fuel + 1, _, hfuel, hdisj, hnd => by
    have hk : getVal? acc k = none := hdisj (k, v) (by simp)
    have hstep : insertEntry acc (String.mk k.data) (String.mk v.data) = acc ++ [(k, v)] := by
      rw [stringMk_data, stringMk_data]
      exact insertEntry_of_fresh hk v
    rcases rest with _ | ⟨p, rest'⟩
    · rw [show entriesStream [(k, v)] = '"' :: entryTail k v ['\n', rbrace] from rfl]
      rw [parseEntriesAux]
      simp only [entryTail, Char.reduceEq, reduceIte, parseStrBody_escapeList]
      rw [show skipWs (':' :: ' ' :: '"' :: (escapeList v.data ++ '"' :: ['\n', rbrace]))
          = ':' :: ' ' :: '"' :: (escapeList v.data ++ '"' :: ['\n', rbrace]) from rfl]
      simp only [Char.reduceEq, reduceIte]
      rw [show skipWs (' ' :: '"' :: (escapeList v.data ++ '"' :: ['\n', rbrace]))
          = '"' :: (escapeList v.data ++ '"' :: ['\n', rbrace]) from rfl]
      simp only [Char.reduceEq, reduceIte, parseStrBody_escapeList]
      rw [show skipWs ['\n', rbrace] = [rbrace] from rfl]
      simp only [eq_false (show ¬ rbrace = ',' by decide), if_false,
        eq_self_iff_true, if_true, hstep]
    · rw [show entriesStream ((k, v) :: p :: rest')
          = '"' :: entryTail k v (',' :: (nlIndent ++ entriesStream (p :: rest'))) from rfl]
      rw [parseEntriesAux]
      simp only [entryTail, Char.reduceEq, reduceIte, parseStrBody_escapeList]
      rw [show skipWs (':' :: ' ' :: '"' :: (escapeList v.data ++ '"'
            :: (',' :: (nlIndent ++ entriesStream (p :: rest')))))
          = ':' :: ' ' :: '"' :: (escapeList v.data ++ '"'
            :: (',' :: (nlIndent ++ entriesStream (p :: rest')))) from rfl]
      simp only [Char.reduceEq, reduceIte]
      rw [show skipWs (' ' :: '"' :: (escapeList v.data ++ '"'
            :: (',' :: (nlIndent ++ entriesStream (p :: rest')))))
          = '"' :: (escapeList v.data ++ '"'
            :: (',' :: (nlIndent ++ entriesStream (p :: rest')))) from rfl]
      simp only [Char.reduceEq, reduceIte, parseStrBody_escapeList]
      rw [show skipWs (',' :: (nlIndent ++ entriesStream (p :: rest')))
          = ',' :: (nlIndent ++ entriesStream (p :: rest')) from rfl]
      simp only [Char.reduceEq, reduceIte, hstep]
      rw [skipWs_nlIndent_stream]
      rw [List.map_cons, List.nodup_cons] at hnd
      have ih := parseEntriesAux_stream (p :: rest') (acc ++ [(k, v)]) fuel (by simp)
        (by simp at hfuel ⊢; omega)
        (by
          intro q hq
          have hfq : getVal? acc q.1 = none := hdisj q (by simp [hq])
          rw [getVal?_append_of_none hfq]
          have hkq : ¬ k = q.1 := by
            intro hkq
            apply hnd.1
            rw [hkq]
            exact List.mem_map.mpr ⟨q, hq, rfl⟩
          rw [getVal?, if_neg hkq, getVal?])
        hnd.2
      rw [ih]
      simp

theorem entriesStream_length : ∀ (m : List (String × String)), m.length ≤ (entriesStream m).length
  | [] => by simp [entriesStream]
  | (k, v) :: rest => by
    have ih := entriesStream_length rest
    rcases rest with _ | ⟨p, r⟩
    · rw [show entriesStream [(k, v)] = '"' :: entryTail k v ['\n', rbrace] from rfl]
      simp only [entryTail, List.length_cons, List.length_append, List.length_nil]
      omega
    · rw [show entriesStream ((k, v) :: p :: r)
          = '"' :: entryTail k v (',' :: (nlIndent ++ entriesStream (p :: r))) from rfl]
      simp only [entryTail, nlIndent, List.length_cons, List.length_append,
        List.length_nil] at ih ⊢
      omega

/-- `json.loads` inverts `json.dump` on every store mapping with distinct
keys (every mapping a Python dict can hold). -/
theorem pyLoads_dumps (m : List (String × String)) (hnd : (m.map Prod.fst).Nodup) :
    pyLoadsChars (dumpsChars m) = some m := by
  rcases m with _ | ⟨⟨k, v⟩, rest⟩
  · rfl
  · rw [show dumpsChars ((k, v) :: rest)
        = lbrace :: (entriesChars ((k, v) :: rest) ++ ['\n', rbrace]) from rfl]
    rw [entriesChars_stream ((k, v) :: rest) (by simp)]
    rw [pyLoadsChars]
    rw [show skipWs (lbrace :: (nlIndent ++ entriesStream ((k, v) :: rest)))
        = lbrace :: (nlIndent ++ entriesStream ((k, v) :: rest)) from rfl]
    simp only [eq_self_iff_true, if_true, reduceIte]
    rw [skipWs_nlIndent_stream]
    rw [entriesStream_cons]
    simp only [eq_false (show ¬ '"' = rbrace by decide), if_false, reduceIte]
    rw [← entriesStream_cons]
    rw [parseEntriesAux_stream ((k, v) :: rest) []
      ((lbrace :: (nlIndent ++ entriesStream ((k, v) :: rest))).length + 1) (by simp)
      (by
        have := entriesStream_length ((k, v) :: rest)
        simp only [List.length_cons, List.length_append, nlIndent,
          List.length_nil] at this ⊢
        omega)
      (fun p _ => rfl) hnd]
    rfl

/-- Every mapping the scanner builds from a dict accumulator has distinct
keys (Python-dict insertion keeps keys unique). -/
theorem parseEntriesAux_nodup :
    ∀ (fuel : Nat) (l : List Char) (acc m : List (String × String)) (r : List Char),
      (acc.map Prod.fst).Nodup → parseEntriesAux fuel l acc = some (m, r) →
      (m.map Prod.fst).Nodup
  | 0, _, _, m, r, _, h => by simp [parseEntriesAux] at h
  | fuel + 1, l, acc, m, r, hacc, h => by
    rw [parseEntriesAux.eq_def] at h
    repeat' split at h
    all_goals first
      | exact Option.noConfusion h
      | exact parseEntriesAux_nodup _ _ _ m r (insertEntry_nodup hacc) h
      | (simp only [Option.some.injEq, Prod.mk.injEq] at h
         rcases h with ⟨h1, -⟩
         subst h1
         exact insertEntry_nodup hacc)
  termination_by fuel _ _ _ _ => fuel
  decreasing_by omega

theorem pyLoadsChars_nodup (l : List Char) (m : List (String × String))
    (h : pyLoadsChars l = some m) : (m.map Prod.fst).Nodup := by
  rw [pyLoadsChars] at h
  repeat' split at h
  all_goals first
    | exact Option.noConfusion h
    | (simp only [Option.some.injEq] at h
       subst h
       first
         | simp
         | exact parseEntriesAux_nodup _ _ [] _ _ (by simp) (by assumption))

theorem pyLoadsStr_nodup (s : String) (m : List (String × String))
    (h : pyLoadsStr s = some m) : (m.map Prod.fst).Nodup :=
  pyLoadsChars_nodup s.data m h

theorem load_keys_nodup (fs : Fs) (m : List (String × String)) (fs1 : Fs)
    (h : load_keys fs = .ok (m, fs1)) : (m.map Prod.fst).Nodup := by
  rw [load_keys] at h
  repeat' split at h
  all_goals first
    | exact Except.noConfusion h
    | (simp only [Except.ok.injEq, Prod.mk.injEq] at h
       rcases h with ⟨h1, -⟩
       subst h1
       first
         | simp
         | exact pyLoadsStr_nodup _ _ (by assumption))

/-! ## Datetime formatting and parsing lemmas -/

theorem stringData_mk (l : List Char) : (String.mk l).data = l := rfl

theorem daysInMonth_pos (y m : Nat) : 1 ≤ daysInMonth y m := by
  unfold daysInMonth
  split_ifs <;> omega

theorem daysInMonth_le (y m : Nat) : daysInMonth y m ≤ 31 := by
  unfold daysInMonth
  split_ifs <;> omega

theorem nextDay_hour (dt : PyDateTime) : (nextDay dt).hour = dt.hour := by
  unfold nextDay; split_ifs <;> rfl

theorem nextDay_minute (dt : PyDateTime) : (nextDay dt).minute = dt.minute := by
  unfold nextDay; split_ifs <;> rfl

theorem nextDay_second (dt : PyDateTime) : (nextDay dt).second = dt.second := by
  unfold nextDay; split_ifs <;> rfl

theorem nextDay_microsecond (dt : PyDateTime) : (nextDay dt).microsecond = dt.microsecond := by
  unfold nextDay; split_ifs <;> rfl

theorem nextDay_offset (dt : PyDateTime) :
    (nextDay dt).utcOffsetMinutes = dt.utcOffsetMinutes := by
  unfold nextDay; split_ifs <;> rfl

theorem nextDay_valid (dt : PyDateTime) (hv : dt.Valid) (hy : dt.year ≤ 9998) :
    (nextDay dt).Valid := by
  obtain ⟨h1, h2, h3, h4, h5, h6, h7, h8, h9, h10⟩ := hv
  unfold nextDay
  split_ifs with hd hm
  · show 1 ≤ dt.year ∧ dt.year ≤ 9999 ∧ 1 ≤ dt.month ∧ dt.month ≤ 12 ∧
      1 ≤ dt.day + 1 ∧ dt.day + 1 ≤ daysInMonth dt.year dt.month ∧
      dt.hour ≤ 23 ∧ dt.minute ≤ 59 ∧ dt.second ≤ 59 ∧ dt.microsecond ≤ 999999
    exact ⟨h1, h2, h3, h4, by omega, by omega, h7, h8, h9, h10⟩
  · show 1 ≤ dt.year ∧ dt.year ≤ 9999 ∧ 1 ≤ dt.month + 1 ∧ dt.month + 1 ≤ 12 ∧
      1 ≤ 1 ∧ 1 ≤ daysInMonth dt.year (dt.month + 1) ∧
      dt.hour ≤ 23 ∧ dt.minute ≤ 59 ∧ dt.second ≤ 59 ∧ dt.microsecond ≤ 999999
    exact ⟨h1, h2, by omega, by omega, le_refl 1,
      daysInMonth_pos dt.year (dt.month + 1), h7, h8, h9, h10⟩
  · show 1 ≤ dt.year + 1 ∧ dt.year + 1 ≤ 9999 ∧ 1 ≤ 1 ∧ (1 : Nat) ≤ 12 ∧
      1 ≤ 1 ∧ 1 ≤ daysInMonth (dt.year + 1) 1 ∧
      dt.hour ≤ 23 ∧ dt.minute ≤ 59 ∧ dt.second ≤ 59 ∧ dt.microsecond ≤ 999999
    exact ⟨by omega, by omega, le_refl 1, by omega, le_refl 1,
      daysInMonth_pos (dt.year + 1) 1, h7, h8, h9, h10⟩

theorem mem_pad2 (n : Nat) (c : Char) (hc : c ∈ pad2 n) :
    ∃ k, k < 10 ∧ c = digCh k := by
  simp only [pad2, List.mem_cons, List.not_mem_nil, or_false] at hc
  rcases hc with h | h
  · exact ⟨n / 10 % 10, Nat.mod_lt _ (by omega), h⟩
  · exact ⟨n % 10, Nat.mod_lt _ (by omega), h⟩

theorem mem_pad4 (n : Nat) (c : Char) (hc : c ∈ pad4 n) :
    ∃ k, k < 10 ∧ c = digCh k := by
  simp only [pad4, List.mem_cons, List.not_mem_nil, or_false] at hc
  rcases hc with h | h | h | h
  · exact ⟨n / 1000 % 10, Nat.mod_lt _ (by omega), h⟩
  · exact ⟨n / 100 % 10, Nat.mod_lt _ (by omega), h⟩
  · exact ⟨n / 10 % 10, Nat.mod_lt _ (by omega), h⟩
  · exact ⟨n % 10, Nat.mod_lt _ (by omega), h⟩

theorem mem_dateTimeBase (dt : PyDateTime) (c : Char) (hc : c ∈ dateTimeBase dt) :
    c ≠ '.' ∧ c ≠ 'Z' := by
  simp only [dateTimeBase, List.mem_append, List.mem_cons, or_assoc] at hc
  rcases hc with h | h | h | h | h | h | h | h | h | h | h
  all_goals first
    | (subst h; exact ⟨by decide, by decide⟩)
    | (obtain ⟨k, hk, rfl⟩ := mem_pad4 _ _ h
       exact ⟨digCh_ne_dot k hk, digCh_ne_upperZ k hk⟩)
    | (obtain ⟨k, hk, rfl⟩ := mem_pad2 _ _ h
       exact ⟨digCh_ne_dot k hk, digCh_ne_upperZ k hk⟩)

theorem splitDotHead_no_dot :
    ∀ (l : List Char), (∀ c ∈ l, c ≠ '.') → splitDotHead l = l
  | [], _ => rfl
  | c :: l, h => by
    have hc : c ≠ '.' := h c (by simp)
    rw [splitDotHead, List.takeWhile_cons, if_pos (by simp [hc])]
    have ih := splitDotHead_no_dot l (fun c2 hc2 => h c2 (by simp [hc2]))
    rw [splitDotHead] at ih
    rw [ih]

theorem splitDotHead_append_dot (l1 l2 : List Char) (h : ∀ c ∈ l1, c ≠ '.') :
    splitDotHead (l1 ++ '.' :: l2) = l1 := by
  induction l1 with
  | nil => simp [splitDotHead]
  | cons c l ih =>
    have hc : c ≠ '.' := h c (by simp)
    rw [List.cons_append, splitDotHead, List.takeWhile_cons, if_pos (by simp [hc])]
    rw [splitDotHead] at ih
    rw [ih (fun c2 hc2 => h c2 (by simp [hc2]))]

theorem replaceZ_no_Z :
    ∀ (l : List Char), (∀ c ∈ l, c ≠ 'Z') → replaceZChars l = l
  | [], _ => rfl
  | c :: l, h => by
    have hc : c ≠ 'Z' := h c (by simp)
    rw [replaceZChars, if_neg hc, replaceZ_no_Z l (fun c2 hc2 => h c2 (by simp [hc2]))]

theorem replaceZ_append_Z (l : List Char) (h : ∀ c ∈ l, c ≠ 'Z') :
    replaceZChars (l ++ ['Z']) = l ++ ['+', '0', '0', ':', '0', '0'] := by
  induction l with
  | nil => rfl
  | cons c l ih =>
    have hc : c ≠ 'Z' := h c (by simp)
    simp only [List.cons_append, replaceZChars, if_neg hc, List.append_eq]
    rw [ih (fun c2 hc2 => h c2 (by simp [hc2]))]

/-- `fromisoformat` inverts the `YYYY-MM-DDTHH:MM:SS+00:00` rendering of a
valid datetime (microseconds dropped, UTC offset). -/
theorem pyFromIsoformat_base (dt : PyDateTime) (hv : dt.Valid) :
    pyFromIsoformat (String.mk (dateTimeBase dt ++ ['+', '0', '0', ':', '0', '0']))
      = some ⟨dt.year, dt.month, dt.day, dt.hour, dt.minute, dt.second, 0, some 0⟩ := by
  obtain ⟨h1, h2, h3, h4, h5, h6, h7, h8, h9, h10⟩ := hv
  rw [pyFromIsoformat, stringData_mk]
  simp only [dateTimeBase, List.append_assoc, List.cons_append]
  rw [read4_pad4 dt.year (by omega)]
  simp only [Option.bind_eq_bind, Option.some_bind, Char.reduceEq, reduceIte]
  rw [read2_pad2 dt.month (by omega)]
  simp only [Option.some_bind, Char.reduceEq, reduceIte]
  rw [read2_pad2 dt.day (by have := daysInMonth_le dt.year dt.month; omega)]
  simp only [Option.some_bind, Char.reduceEq, reduceIte]
  rw [read2_pad2 dt.hour (by omega)]
  simp only [Option.some_bind, Char.reduceEq, reduceIte]
  rw [read2_pad2 dt.minute (by omega)]
  simp only [Option.some_bind, Char.reduceEq, reduceIte]
  rw [finishTime]
  simp only [Char.reduceEq, reduceIte]
  rw [read2_pad2 dt.second (by omega)]
  simp only [Option.bind_eq_bind, Option.some_bind, Char.reduceEq, reduceIte]
  rw [show readOffset ['+', '0', '0', ':', '0', '0'] = some ((0 : Int), []) from rfl]
  simp only [Option.bind_eq_bind, Option.some_bind]
  rw [mkDateTime?, if_pos ⟨h1, h2, h3, h4, h5, h6, h7, h8, h9, by omega⟩]

/-- The expiration string `generate_key` persists for an issuance instant
with nonzero microseconds parses back (through the validator's own parse)
to the whole-second truncation of `now + 24h`, as a UTC-aware datetime. -/
theorem parseExpiration_expirationString (now : PyDateTime) (hv : now.Valid)
    (hz : now.utcOffsetMinutes = some 0) (hus : now.microsecond ≠ 0)
    (hy : now.year ≤ 9998) :
    parseExpiration (expirationString now)
      = some ⟨(add24Hours now).year, (add24Hours now).month, (add24Hours now).day,
          now.hour, now.minute, now.second, 0, some 0⟩ := by
  have hvx : (add24Hours now).Valid := nextDay_valid now hv hy
  have hoff : (add24Hours now).utcOffsetMinutes = some 0 := by
    rw [add24Hours, nextDay_offset, hz]
  have hus2 : (add24Hours now).microsecond ≠ 0 := by
    rw [add24Hours, nextDay_microsecond]
    exact hus
  have hiso : isoformatChars (add24Hours now)
      = dateTimeBase (add24Hours now)
        ++ ('.' :: (pad6 (add24Hours now).microsecond ++ ['+', '0', '0', ':', '0', '0'])) := by
    rw [isoformatChars, if_neg hus2, hoff]
    simp only [List.append_assoc, List.cons_append]
    rfl
  have hsplit : splitDotHead (isoformatChars (add24Hours now))
      = dateTimeBase (add24Hours now) := by
    rw [hiso]
    exact splitDotHead_append_dot _ _ (fun c hc => (mem_dateTimeBase _ c hc).1)
  rw [parseExpiration, expirationString, stringData_mk, expirationChars, hsplit]
  rw [replaceZ_append_Z _ (fun c hc => (mem_dateTimeBase _ c hc).2)]
  rw [pyFromIsoformat_base (add24Hours now) hvx]
  rw [add24Hours, nextDay_hour, nextDay_minute, nextDay_second]

/-! ## Store-level helper lemmas -/

theorem load_keys_total (fs : Fs) (h : fs.content.isSome ∨ fs.writeOk = true) :
    ∃ m fs1, load_keys fs = .ok (m, fs1) := by
  rcases hc : fs.content with _ | s
  · rcases h with h | h
    · rw [hc] at h
      simp at h
    · simp only [load_keys, hc, h, if_true]
      exact ⟨[], _, rfl⟩
  · simp only [load_keys, hc]
    by_cases hr : fs.readOk = true
    · rw [if_pos hr]
      by_cases hs : s = ""
      · rw [if_pos hs]
        exact ⟨[], fs, rfl⟩
      · rw [if_neg hs]
        rcases hp : pyLoadsStr s with _ | m
        · exact ⟨[], fs, rfl⟩
        · exact ⟨m, fs, rfl⟩
    · rw [if_neg hr]
      exact ⟨[], fs, rfl⟩

theorem load_content_some (fs : Fs) (s : String) (hc : fs.content = some s) :
    ∃ m, load_keys fs = .ok (m, fs) := by
  simp only [load_keys, hc]
  by_cases hr : fs.readOk = true
  · rw [if_pos hr]
    by_cases hs : s = ""
    · rw [if_pos hs]
      exact ⟨[], rfl⟩
    · rw [if_neg hs]
      rcases hp : pyLoadsStr s with _ | m
      · exact ⟨[], rfl⟩
      · exact ⟨m, rfl⟩
  · rw [if_neg hr]
    exact ⟨[], rfl⟩

theorem load_keys_flags (fs : Fs) (m : List (String × String)) (fs1 : Fs)
    (h : load_keys fs = .ok (m, fs1)) :
    fs1.readOk = fs.readOk ∧ fs1.writeOk = fs.writeOk := by
  unfold load_keys at h
  repeat' split at h
  all_goals first
    | exact Except.noConfusion h
    | (simp only [Except.ok.injEq, Prod.mk.injEq] at h
       rcases h with ⟨-, h2⟩
       subst h2
       simp)

theorem load_keys_idem (fs : Fs) (m : List (String × String)) (fs1 : Fs)
    (h : load_keys fs = .ok (m, fs1)) : load_keys fs1 = .ok (m, fs1) := by
  unfold load_keys at h ⊢
  repeat' split at h
  all_goals first
    | exact Except.noConfusion h
    | (simp only [Except.ok.injEq, Prod.mk.injEq] at h
       rcases h with ⟨h1, h2⟩
       subst h1
       subst h2
       by_cases hr2 : fs.readOk = true <;>
         simp_all [show pyLoadsStr emptyJson = some [] from rfl,
           show ¬ emptyJson = "" by decide])

theorem load_keys_readOk_false (fs : Fs) (m : List (String × String)) (fs1 : Fs)
    (h : load_keys fs = .ok (m, fs1)) (hr : fs1.readOk = false) : m = [] := by
  unfold load_keys at h
  repeat' split at h
  all_goals first
    | exact Except.noConfusion h
    | (simp only [Except.ok.injEq, Prod.mk.injEq] at h
       rcases h with ⟨h1, h2⟩
       subst h1
       first
         | rfl
         | (subst h2; simp_all))

theorem dumpsStr_ne_empty (m : List (String × String)) : dumpsStr m ≠ "" := by
  rcases m with _ | ⟨p, rest⟩
  · decide
  · intro h
    have : (dumpsStr ((p :: rest))).data = ("" : String).data := by rw [h]
    rcases p with ⟨k, v⟩
    simp [dumpsStr, dumpsChars] at this

theorem getVal?_none_not_mem (m : List (String × String)) (k : String)
    (h : getVal? m k = none) : k ∉ m.map Prod.fst := by
  induction m with
  | nil => simp
  | cons p rest ih =>
    rcases p with ⟨k0, v0⟩
    rw [getVal?] at h
    by_cases hk : k0 = k
    · simp [hk] at h
    · rw [if_neg hk] at h
      simp only [List.map_cons, List.mem_cons]
      rintro (h2 | h2)
      · exact hk h2.symm
      · exact ih h h2

/-! ## Claim theorems -/

/-- **C3** (corrected): the root route `GET /` is a liveness check, not a
key issuer: for every store state it returns HTTP 200 with the JSON
payload `status = "online"` and the fixed message, and it leaves the file
system completely untouched (it never reads or writes the store).  The
spec's claim that `GET /` behaves like `/generateKey` does not match
`src/app.py:45-51`. -/
theorem C3_home_is_status_route (fs : Fs) :
    home fs = ((200, "online", homeMsg), fs) := rfl

/-- **C3** counterexample: at a concrete store state (an existing store
file holding the empty object), `GET /` leaves the file untouched — the
persisted mapping after the call is still empty, so no key was
generated, persisted, or returned, contradicting the claim that `GET /`
issues a key exactly like `/generateKey` (which appends an entry). -/
theorem C3_counterexample :
    (home ⟨some emptyJson, true, true⟩).2 = ⟨some emptyJson, true, true⟩
    ∧ (home ⟨some emptyJson, true, true⟩).1 = (200, "online", homeMsg)
    ∧ pyLoadsStr emptyJson = some [] :=
  ⟨rfl, rfl, rfl⟩

/-- **C7** (corrected): `load_keys` returns the empty mapping whenever the
file is absent (creating an empty `"{}"` store file), unreadable, empty,
or unparseable.  The "never raises" part of the claim had to be dropped:
the file-creating `open` at src/app.py:18 sits outside the `try`, so its
failure propagates (see `C7_counterexample`). -/
theorem C7_load_keys_spec (fs : Fs) :
    (fs.content = none → fs.writeOk = true →
      load_keys fs = .ok ([], { fs with content := some emptyJson }))
    ∧ (∀ s, fs.content = some s →
        (fs.readOk = false ∨ s = "" ∨ pyLoadsStr s = none) →
        load_keys fs = .ok ([], fs)) := by
  constructor
  · intro hc hw
    simp only [load_keys, hc, hw, if_true]
  · intro s hc hcase
    simp only [load_keys, hc]
    by_cases hr : fs.readOk = true
    · rw [if_pos hr]
      by_cases hs : s = ""
      · rw [if_pos hs]
      · rw [if_neg hs]
        rcases hcase with h | h | h
        · rw [hr] at h
          simp at h
        · exact absurd h hs
        · rw [h]
    · rw [if_neg hr]

/-- **C7** witness: the missing-file branch creates `"{}"` and returns the
empty mapping; an unparseable file also yields the empty mapping. -/
theorem C7_witness :
    load_keys ⟨none, true, true⟩ = .ok ([], ⟨some emptyJson, true, true⟩)
    ∧ load_keys ⟨some "garbage", true, true⟩ = .ok ([], ⟨some "garbage", true, true⟩) :=
  ⟨(C7_load_keys_spec ⟨none, true, true⟩).1 rfl rfl,
   (C7_load_keys_spec ⟨some "garbage", true, true⟩).2 "garbage" rfl
     (Or.inr (Or.inr (by decide)))⟩

/-- **C7** counterexample: when the store file is missing and creating it
fails (e.g. a read-only file system), the unguarded
`open(KEY_FILE, 'w')` at src/app.py:18 raises and the exception
propagates to the caller — `load_keys` does not "never raise". -/
theorem C7_counterexample : load_keys ⟨none, true, false⟩ = .error () := rfl

/-- **C8** (confirmed): a present-but-empty `key` query parameter takes the
`not key_to_validate` branch at src/app.py:117: the response is exactly
the missing-parameter error (400, "invalid", "No key provided"), not the
404 key-not-found error, and the store is untouched — the handler
returns before `load_keys` runs, so the same response and unchanged file
state result for **every** store state (even a missing store file is not
created, and a store that contains the empty-string key is never
consulted). -/
theorem C8_empty_key_param (fs : Fs) (now : PyDateTime) :
    validate_key (some "") fs now = .ok ((400, "invalid", "No key provided"), fs) := rfl

/-- The outcome of the validator's `try` block on a stored string: `none`
when parsing the stored expiration (or comparing it with `now`) raises,
otherwise whether `now` is strictly before the expiration. -/
def expirationCheck (stored : String) (now : PyDateTime) : Option Bool :=
  (parseExpiration stored).bind (fun e => pyLt? now e)

/-- **C2** (corrected): exhaustive description of every
`GET /api/v1/validateKey` outcome.  A missing **or empty** key parameter
yields the 400 response; otherwise, provided `load_keys` does not raise,
the response is exactly one of 404 (key not in the loaded mapping),
500 (stored string unparseable, or not comparable with the aware `now`),
200/"valid" (`now` strictly before the stored expiration) and
401 (expired); and when the store file is missing and cannot be created,
the handler raises instead of answering (see `C2_counterexample`).
Together with the type-level exhaustiveness of each scrutinee this
covers every request. -/
theorem C2_validate_outcomes (param : Option String) (fs : Fs) (now : PyDateTime) :
    ((param = none ∨ param = some "") →
      validate_key param fs now = .ok ((400, "invalid", "No key provided"), fs))
    ∧ (∀ k, param = some k → k ≠ "" →
        (load_keys fs = .error () → validate_key param fs now = .error ())
        ∧ (∀ m fs1, load_keys fs = .ok (m, fs1) →
            (getVal? m k = none →
              validate_key param fs now = .ok ((404, "invalid", "Key not found"), fs1))
            ∧ (∀ stored, getVal? m k = some stored →
                (expirationCheck stored now = none →
                  validate_key param fs now
                    = .ok ((500, "invalid", "Internal format error"), fs1))
                ∧ (expirationCheck stored now = some true →
                  validate_key param fs now = .ok ((200, "valid", "Access Granted"), fs1))
                ∧ (expirationCheck stored now = some false →
                  validate_key param fs now = .ok ((401, "invalid", "Key Expired"), fs1))))) := by
  refine ⟨?_, ?_⟩
  · rintro (rfl | rfl)
    · rfl
    · rfl
  · rintro k rfl hk
    refine ⟨?_, ?_⟩
    · intro herr
      simp only [validate_key, if_neg hk, herr]
    · rintro m fs1 hload
      refine ⟨?_, ?_⟩
      · intro hget
        simp only [validate_key, if_neg hk, hload, hget]
      · rintro stored hget
        refine ⟨?_, ?_, ?_⟩
        all_goals intro hchk
        all_goals rcases hpe : parseExpiration stored with _ | e
        all_goals rw [expirationCheck, hpe] at hchk
        all_goals simp only [Option.none_bind, Option.some_bind] at hchk
        all_goals first
          | exact Option.noConfusion hchk
          | simp only [validate_key, if_neg hk, hload, hget, hpe, hchk]

/-- **C2** witness: a key absent from an existing (empty) store yields the
404 outcome through the theorem. -/
theorem C2_witness :
    validate_key (some "zz") ⟨some emptyJson, true, true⟩ ⟨2026, 1, 1, 0, 0, 0, 0, some 0⟩
      = .ok ((404, "invalid", "Key not found"), ⟨some emptyJson, true, true⟩) :=
  (((C2_validate_outcomes (some "zz") ⟨some emptyJson, true, true⟩
      ⟨2026, 1, 1, 0, 0, 0, 0, some 0⟩).2 "zz" rfl (by decide)).2 []
      ⟨some emptyJson, true, true⟩ rfl).1 rfl

/-- **C2** counterexample: with the store file missing and its creation
failing, `load_keys`' unguarded `open(KEY_FILE, 'w')` raises inside the
handler before any JSON response is built, so the claim's "the response
is JSON … no other outcome is possible" is false at this request (Flask
turns the exception into its own non-JSON 500 page). -/
theorem C2_counterexample :
    validate_key (some "k") ⟨none, true, false⟩ ⟨2026, 1, 1, 0, 0, 0, 0, some 0⟩
      = .error () := rfl

/-- **C10** (corrected): the validation handler never touches an existing
store file — whatever the outcome, the file system comes back unchanged.
But when the store file is **missing** and the key parameter is present
and nonempty, `load_keys` creates an empty store file as a side effect of
the lookup, so "the persisted file content is identical before and after
the call" had to be weakened to cover that case (see
`C10_counterexample`). -/
theorem C10_validate_store_effect (param : Option String) (fs : Fs) (now : PyDateTime) :
    (fs.content.isSome →
      (validate_key param fs now).map Prod.snd = .ok fs)
    ∧ (∀ k, fs.content = none → fs.writeOk = true → param = some k → k ≠ "" →
        (validate_key param fs now).map Prod.snd
          = .ok { fs with content := some emptyJson }) := by
  refine ⟨?_, ?_⟩
  · intro h
    obtain ⟨s, hs⟩ := Option.isSome_iff_exists.mp h
    rcases param with _ | k
    · rfl
    · by_cases hk : k = ""
      · subst hk
        rfl
      · obtain ⟨m, hm⟩ := load_content_some fs s hs
        simp only [validate_key, if_neg hk, hm]
        repeat' split
        all_goals rfl
  · rintro k hc hw rfl hk
    have hload : load_keys fs = .ok ([], { fs with content := some emptyJson }) := by
      simp only [load_keys, hc, hw, if_true]
    simp only [validate_key, if_neg hk, hload, getVal?]
    rfl

/-- **C10** witness: an existing store is returned untouched by a lookup;
a missing store is created empty by a lookup. -/
theorem C10_witness :
    (validate_key (some "zz") ⟨some emptyJson, true, true⟩
        ⟨2026, 1, 1, 0, 0, 0, 0, some 0⟩).map Prod.snd = .ok ⟨some emptyJson, true, true⟩
    ∧ (validate_key (some "zz") ⟨none, true, true⟩
        ⟨2026, 1, 1, 0, 0, 0, 0, some 0⟩).map Prod.snd = .ok ⟨some emptyJson, true, true⟩ :=
  ⟨(C10_validate_store_effect (some "zz") ⟨some emptyJson, true, true⟩
      ⟨2026, 1, 1, 0, 0, 0, 0, some 0⟩).1 rfl,
   (C10_validate_store_effect (some "zz") ⟨none, true, true⟩
      ⟨2026, 1, 1, 0, 0, 0, 0, some 0⟩).2 "zz" rfl rfl rfl (by decide)⟩

/-- **C10** counterexample: validating against a missing store file
creates `keys.json` with content `"{}"` — the persisted file content
before the call (no file) differs from after (an empty store file),
falsifying "the persisted file content is identical before and after the
call" as universally stated. -/
theorem C10_counterexample :
    (validate_key (some "zz") ⟨none, true, true⟩
        ⟨2026, 1, 1, 0, 0, 0, 0, some 0⟩).map Prod.snd = .ok ⟨some emptyJson, true, true⟩
    ∧ (⟨some emptyJson, true, true⟩ : Fs) ≠ ⟨none, true, true⟩ :=
  ⟨rfl, by decide⟩

/-- **C6** (confirmed): saving exactly what `load_keys` returned and
loading again yields the same mapping, whatever the store file looked
like — for a well-formed store file this is the `json.loads`/`json.dump`
round-trip (`pyLoads_dumps`); for the degenerate branches (unreadable,
empty, unparseable, freshly created, or unwritable file) the reloaded
mapping is the same empty or unchanged mapping. -/
theorem C6_save_load_roundtrip (fs : Fs) (m : List (String × String)) (fs1 : Fs)
    (hl : load_keys fs = .ok (m, fs1)) :
    load_keys (save_keys m fs1).2 = .ok (m, (save_keys m fs1).2) := by
  by_cases hw : fs1.writeOk = true
  · have hsv : (save_keys m fs1).2 = { fs1 with content := some (dumpsStr m) } := by
      simp only [save_keys, hw, if_true]
    rw [hsv]
    by_cases hr : fs1.readOk = true
    · simp only [load_keys, hr, if_true, if_neg (dumpsStr_ne_empty m)]
      rw [show pyLoadsStr (dumpsStr m) = pyLoadsChars (dumpsChars m) from rfl]
      rw [pyLoads_dumps m (load_keys_nodup fs m fs1 hl)]
    · have hm : m = [] := load_keys_readOk_false fs m fs1 hl (by simp_all)
      subst hm
      simp only [load_keys]
      rw [if_neg (by simp_all : ¬ ({ fs1 with content := some (dumpsStr []) } : Fs).readOk = true)]
  · have hsv : (save_keys m fs1).2 = fs1 := by
      simp [save_keys, hw]
    rw [hsv]
    exact load_keys_idem fs m fs1 hl

/-- **C6** witness: the round-trip on a concrete well-formed store file. -/
theorem C6_witness :
    load_keys (save_keys [("a", "2026-01-01T00:00:00Z")]
        ⟨some "\x7b\"a\": \"2026-01-01T00:00:00Z\"\x7d", true, true⟩).2
      = .ok ([("a", "2026-01-01T00:00:00Z")],
          (save_keys [("a", "2026-01-01T00:00:00Z")]
            ⟨some "\x7b\"a\": \"2026-01-01T00:00:00Z\"\x7d", true, true⟩).2) :=
  C6_save_load_roundtrip ⟨some "\x7b\"a\": \"2026-01-01T00:00:00Z\"\x7d", true, true⟩
    [("a", "2026-01-01T00:00:00Z")]
    ⟨some "\x7b\"a\": \"2026-01-01T00:00:00Z\"\x7d", true, true⟩ rfl

/-- **C9** (corrected): when the store file is writable and the freshly
generated key is not already present, `GET /generateKey` persists exactly
the previous mapping extended with the one new entry at the end, and the
persisted file still parses back to that extended mapping.  The claim's
universal "for every store state" had to be weakened: a failed write
leaves the file unchanged (see `C9_counterexample`). -/
theorem C9_generate_frame (key : String) (now : PyDateTime)
    (localize : PyDateTime → String) (fs : Fs) (m : List (String × String)) (fs1 : Fs)
    (hw : fs.writeOk = true) (hl : load_keys fs = .ok (m, fs1))
    (hfresh : getVal? m key = none) :
    (generate_key key now localize fs).map Prod.snd
      = .ok { fs1 with content := some (dumpsStr (m ++ [(key, expirationString now)])) }
    ∧ pyLoadsStr (dumpsStr (m ++ [(key, expirationString now)]))
      = some (m ++ [(key, expirationString now)]) := by
  have hw1 : fs1.writeOk = true := (load_keys_flags fs m fs1 hl).2.trans hw
  have hnd : ((m ++ [(key, expirationString now)]).map Prod.fst).Nodup := by
    rw [List.map_append, List.nodup_append]
    refine ⟨load_keys_nodup fs m fs1 hl, by simp, ?_⟩
    intro x hx
    simp only [List.map_cons, List.map_nil, List.mem_cons, List.not_mem_nil, or_false]
    intro hxk
    subst hxk
    exact getVal?_none_not_mem m x hfresh hx
  refine ⟨?_, ?_⟩
  · simp only [generate_key, hl, insertEntry_of_fresh hfresh, save_keys, hw1, if_true,
      Except.map]
  · exact pyLoads_dumps _ hnd

/-- **C9** witness: issuing a fresh key against a concrete one-entry store
appends exactly that key. -/
theorem C9_witness :
    (generate_key "newk" ⟨2026, 10, 12, 14, 30, 15, 123456, some 0⟩ (fun _ => "")
        ⟨some "\x7b\"a\": \"2026-01-01T00:00:00Z\"\x7d", true, true⟩).map Prod.snd
      = .ok { (⟨some "\x7b\"a\": \"2026-01-01T00:00:00Z\"\x7d", true, true⟩ : Fs) with
          content := some (dumpsStr ([("a", "2026-01-01T00:00:00Z")]
            ++ [("newk", expirationString ⟨2026, 10, 12, 14, 30, 15, 123456, some 0⟩)])) }
    ∧ pyLoadsStr (dumpsStr ([("a", "2026-01-01T00:00:00Z")]
          ++ [("newk", expirationString ⟨2026, 10, 12, 14, 30, 15, 123456, some 0⟩)]))
      = some ([("a", "2026-01-01T00:00:00Z")]
          ++ [("newk", expirationString ⟨2026, 10, 12, 14, 30, 15, 123456, some 0⟩)]) :=
  C9_generate_frame "newk" ⟨2026, 10, 12, 14, 30, 15, 123456, some 0⟩ (fun _ => "")
    ⟨some "\x7b\"a\": \"2026-01-01T00:00:00Z\"\x7d", true, true⟩
    [("a", "2026-01-01T00:00:00Z")]
    ⟨some "\x7b\"a\": \"2026-01-01T00:00:00Z\"\x7d", true, true⟩ rfl rfl rfl

/-- **C9** counterexample: when the write fails (`save_keys` catches the
exception, src/app.py:39-41, and `generate_key` ignores its `False`
result), the persisted file is unchanged — still the empty store — so the
persisted mapping is **not** the previous mapping extended with the new
key, falsifying the claim as universally stated over store states. -/
theorem C9_counterexample :
    (generate_key "newk" ⟨2026, 10, 12, 14, 30, 15, 123456, some 0⟩ (fun _ => "")
        ⟨some emptyJson, true, false⟩).map Prod.snd
      = .ok ⟨some emptyJson, true, false⟩ := rfl

/-- **C1** (corrected, for nonempty keys): validating a nonempty key `k`
returns status "valid" **iff** the loaded store mapping contains `k` and
the current UTC instant is strictly before the instant denoted by the
expiration parsed (by the validator's own
`fromisoformat(stored.replace('Z', '+00:00'))`) from the stored string.
The original claim over *every* key string fails for the empty string
(see `C1_counterexample`): the handler treats it as a missing parameter
before consulting the store. -/
theorem C1_validate_valid_iff (k : String) (fs : Fs) (now : PyDateTime) (hk : k ≠ "") :
    (∃ fs1, validate_key (some k) fs now = .ok ((200, "valid", "Access Granted"), fs1))
    ↔ (∃ m fs1 stored e, load_keys fs = .ok (m, fs1) ∧ getVal? m k = some stored
        ∧ parseExpiration stored = some e ∧ pyLt? now e = some true) := by
  constructor
  · rintro ⟨fs1, h⟩
    simp only [validate_key, if_neg hk] at h
    rcases hload : load_keys fs with e | ⟨m, fs2⟩
    · simp only [hload] at h
      exact Except.noConfusion h
    · simp only [hload] at h
      rcases hget : getVal? m k with _ | stored
      · simp only [hget] at h
        exfalso
        simp at h
      · simp only [hget] at h
        rcases hpe : parseExpiration stored with _ | ev
        · simp only [hpe] at h
          exfalso
          simp at h
        · simp only [hpe] at h
          rcases hlt : pyLt? now ev with _ | b
          · simp only [hlt] at h
            exfalso
            simp at h
          · simp only [hlt] at h
            rcases b with _ | _
            · exfalso
              simp at h
            · exact ⟨m, fs2, stored, ev, rfl, hget, hpe, hlt⟩
  · rintro ⟨m, fs1, stored, e, h1, h2, h3, h4⟩
    refine ⟨fs1, ?_⟩
    simp only [validate_key, if_neg hk, h1, h2, h3, h4]

/-- **C1** witness: a key present in a concrete store with a far-future
expiration validates as "valid". -/
theorem C1_witness :
    ("abc" : String) ≠ ""
    ∧ (∃ fs1, validate_key (some "abc")
        ⟨some "\x7b\"abc\": \"2999-01-01T00:00:00Z\"\x7d", true, true⟩
        ⟨2026, 1, 1, 0, 0, 0, 0, some 0⟩ = .ok ((200, "valid", "Access Granted"), fs1)) :=
  ⟨by decide,
   (C1_validate_valid_iff "abc" ⟨some "\x7b\"abc\": \"2999-01-01T00:00:00Z\"\x7d", true, true⟩
      ⟨2026, 1, 1, 0, 0, 0, 0, some 0⟩ (by decide)).mpr
    ⟨[("abc", "2999-01-01T00:00:00Z")],
     ⟨some "\x7b\"abc\": \"2999-01-01T00:00:00Z\"\x7d", true, true⟩,
     "2999-01-01T00:00:00Z", ⟨2999, 1, 1, 0, 0, 0, 0, some 0⟩,
     rfl, rfl, by decide, by decide⟩⟩

/-- **C1** counterexample: the empty-string key refutes the claim as
stated over *every* key string: the store maps `""` to a far-future
expiration — so the claim's right-hand side holds — yet the handler
answers 400 "No key provided" (Python's `not key_to_validate` is true
for `""`), never "valid". -/
theorem C1_counterexample :
    validate_key (some "") ⟨some "\x7b\"\": \"2999-01-01T00:00:00Z\"\x7d", true, true⟩
        ⟨2026, 1, 1, 0, 0, 0, 0, some 0⟩
      = .ok ((400, "invalid", "No key provided"),
          ⟨some "\x7b\"\": \"2999-01-01T00:00:00Z\"\x7d", true, true⟩)
    ∧ load_keys ⟨some "\x7b\"\": \"2999-01-01T00:00:00Z\"\x7d", true, true⟩
      = .ok ([("", "2999-01-01T00:00:00Z")],
          ⟨some "\x7b\"\": \"2999-01-01T00:00:00Z\"\x7d", true, true⟩)
    ∧ getVal? [("", "2999-01-01T00:00:00Z")] "" = some "2999-01-01T00:00:00Z"
    ∧ parseExpiration "2999-01-01T00:00:00Z" = some ⟨2999, 1, 1, 0, 0, 0, 0, some 0⟩
    ∧ pyLt? ⟨2026, 1, 1, 0, 0, 0, 0, some 0⟩ ⟨2999, 1, 1, 0, 0, 0, 0, some 0⟩ = some true :=
  ⟨rfl, rfl, rfl, by decide, by decide⟩

/-- Modelled from the spec: the persisted-file timestamp format
`YYYY-MM-DDTHH:MM:SSZ` (spec section 6), as a recognizer over the exact
character shape. -/
def specTimestampFormat (s : String) : Bool :=
  match s.data with
  | [a1, a2, a3, a4, b1, a5, a6, b2, a7, a8, b3, a9, a10, b4, a11, a12, b5, a13, a14, b6] =>
    a1.isDigit && a2.isDigit && a3.isDigit && a4.isDigit && b1 == '-'
    && a5.isDigit && a6.isDigit && b2 == '-' && a7.isDigit && a8.isDigit
    && b3 == 'T' && a9.isDigit && a10.isDigit && b4 == ':' && a11.isDigit
    && a12.isDigit && b5 == ':' && a13.isDigit && a14.isDigit && b6 == 'Z'
  | _ => false

/-- **C4** (code bug): when the computed expiration datetime has zero
microseconds, `isoformat()` emits no fractional part, `split('.')[0]`
therefore keeps the `+00:00` offset, and the persisted string becomes
`...+00:00Z` — not the spec's `YYYY-MM-DDTHH:MM:SSZ`.  The same string
then fails the validator's own parse (last conjunct), so a key issued at
such an instant can never validate (500 instead of 200), contradicting
the spec's "issue then immediately validate returns valid".  With nonzero
microseconds the persisted string does match the spec format (third and
fourth conjuncts), which confirms the zero-microsecond case is a slip,
not a different intended format. -/
theorem C4_expiration_format_bug :
    expirationString ⟨2026, 10, 12, 14, 30, 15, 0, some 0⟩ = "2026-10-13T14:30:15+00:00Z"
    ∧ specTimestampFormat (expirationString ⟨2026, 10, 12, 14, 30, 15, 0, some 0⟩) = false
    ∧ expirationString ⟨2026, 10, 12, 14, 30, 15, 123456, some 0⟩ = "2026-10-13T14:30:15Z"
    ∧ specTimestampFormat (expirationString ⟨2026, 10, 12, 14, 30, 15, 123456, some 0⟩) = true
    ∧ parseExpiration "2026-10-13T14:30:15+00:00Z" = none := by
  refine ⟨by decide, by decide, by decide, by decide, by decide⟩

theorem instant_trunc_ne (dt : PyDateTime) (h0 : dt.utcOffsetMinutes = some 0)
    (hus : dt.microsecond ≠ 0) :
    ({ dt with microsecond := 0, utcOffsetMinutes := some 0 } : PyDateTime).instantMicros?
      ≠ dt.instantMicros? := by
  rw [PyDateTime.instantMicros?, PyDateTime.instantMicros?, h0]
  simp only [Option.map_some, ne_eq, Option.some.injEq]
  intro hc
  simp at hc
  omega

/-- **C5** (corrected): the expiration actually persisted is the
issuance-plus-24-hours instant **truncated to whole seconds**, not
"exactly 24 hours": for every valid UTC issuance instant with nonzero
microseconds (zero microseconds hits the C4 format bug instead, and
years through 9998 keep the successor year in `datetime`'s range), the
stored string parses back to the datetime `now + 24h` with the
microsecond field zeroed — and that parsed instant differs from the
exact `now + 24h` instant. -/
theorem C5_expiration_truncated (now : PyDateTime) (hv : now.Valid)
    (hz : now.utcOffsetMinutes = some 0) (hus : now.microsecond ≠ 0)
    (hy : now.year ≤ 9998) :
    parseExpiration (expirationString now)
      = some { add24Hours now with microsecond := 0, utcOffsetMinutes := some 0 }
    ∧ ({ add24Hours now with microsecond := 0, utcOffsetMinutes := some 0 }
        : PyDateTime).instantMicros?
      ≠ (add24Hours now).instantMicros? := by
  have hoff : (add24Hours now).utcOffsetMinutes = some 0 := by
    rw [add24Hours, nextDay_offset, hz]
  have hus2 : (add24Hours now).microsecond ≠ 0 := by
    rw [add24Hours, nextDay_microsecond]
    exact hus
  constructor
  · rw [parseExpiration_expirationString now hv hz hus hy]
    rw [show ({ add24Hours now with microsecond := 0, utcOffsetMinutes := some 0 }
          : PyDateTime)
        = ⟨(add24Hours now).year, (add24Hours now).month, (add24Hours now).day,
            (add24Hours now).hour, (add24Hours now).minute, (add24Hours now).second,
            0, some 0⟩ from rfl]
    rw [add24Hours, nextDay_hour, nextDay_minute, nextDay_second]
  · exact instant_trunc_ne (add24Hours now) hoff hus2

/-- **C5** witness: at a concrete issuance instant with half a second of
microseconds, the theorem applies and the stored expiration is the
truncated instant. -/
theorem C5_witness :
    parseExpiration (expirationString ⟨2026, 10, 12, 12, 0, 0, 500000, some 0⟩)
      = some { add24Hours ⟨2026, 10, 12, 12, 0, 0, 500000, some 0⟩ with
          microsecond := 0, utcOffsetMinutes := some 0 }
    ∧ ({ add24Hours ⟨2026, 10, 12, 12, 0, 0, 500000, some 0⟩ with
          microsecond := 0, utcOffsetMinutes := some 0 } : PyDateTime).instantMicros?
      ≠ (add24Hours ⟨2026, 10, 12, 12, 0, 0, 500000, some 0⟩).instantMicros? :=
  C5_expiration_truncated ⟨2026, 10, 12, 12, 0, 0, 500000, some 0⟩ (by decide) rfl
    (by decide) (by decide)

/-- **C5** counterexample: at that same concrete instant the stored
expiration string denotes an instant 500000 microseconds **before**
`now + 24h`, falsifying "equals the issuance time plus exactly 24
hours". -/
theorem C5_counterexample :
    (parseExpiration (expirationString ⟨2026, 10, 12, 12, 0, 0, 500000, some 0⟩)).bind
        PyDateTime.instantMicros?
      ≠ (add24Hours ⟨2026, 10, 12, 12, 0, 0, 500000, some 0⟩).instantMicros? := by
  decide

end CyruxKey
